import Mathlib

/-!
Verification of the WorldOnFire backend ingestion and aggregation pipeline.

Each Python function under scrutiny is shallow-embedded as an executable
Lean definition.  Real-valued sentiment scores and coordinates are modelled
as rationals; timestamps as integers (seconds); external I/O (the database,
the feed fetcher, the geocoder) is passed in explicitly as data or as a
function argument.
-/

namespace WorldOnFire

/- ## Heatmap aggregation (get_heatmap, src/main.py)

A row of the projection `select("location, sentiment, title")` from the
news table.  An SQL null / missing field is `none`. -/

structure NewsRow where
  title : Option String
  location : Option String
  sentiment : Option ℚ
deriving DecidableEq

/-- Python: `news_item.get("location", "Unknown")`. -/
def locOf (r : NewsRow) : String := r.location.getD "Unknown"

/-- Dedup loop of get_heatmap: `if title and title not in seen_titles`,
carrying the set of already seen titles. -/
def dedupGo : List String → List NewsRow → List NewsRow
  | _, [] => []
  | seen, r :: rest =>
    match r.title with
    | none => dedupGo seen rest
    | some t =>
      if t ≠ "" ∧ t ∉ seen then r :: dedupGo (t :: seen) rest
      else dedupGo seen rest

/-- Deduplicate rows by title, first occurrence (in stored order) wins;
rows whose title is absent or empty are dropped. -/
def dedupByTitle (rows : List NewsRow) : List NewsRow := dedupGo [] rows

/-- Python: `heatmap_data[location]["sum"] += sentiment; ...["count"] += 1`,
creating the bucket first when absent.  Buckets are kept in insertion
order, as a Python dict does. -/
def addToBucket : List (String × ℚ × ℕ) → String → ℚ → List (String × ℚ × ℕ)
  | [], loc, s => [(loc, s, 1)]
  | (k, sm, c) :: rest, loc, s =>
    if k = loc then (k, sm + s, c + 1) :: rest
    else (k, sm, c) :: addToBucket rest loc s

/-- Body of the accumulation loop of get_heatmap:
`if location == "Unknown" or sentiment is None: continue` then accumulate. -/
def stepRow (acc : List (String × ℚ × ℕ)) (r : NewsRow) : List (String × ℚ × ℕ) :=
  match r.sentiment with
  | none => acc
  | some s => if locOf r = "Unknown" then acc else addToBucket acc (locOf r) s

/-- The `heatmap_data` dict after both loops of get_heatmap. -/
def heatBuckets (rows : List NewsRow) : List (String × ℚ × ℕ) :=
  (dedupByTitle rows).foldl stepRow []

/-- Intensity part of get_heatmap (src/main.py:282-352): per bucket,
`sum / count if count > 0 else 0`.  Coordinate resolution happens
per location, independently of the intensities, and is modelled
separately by geocode_and_cache_location below. -/
def get_heatmap (rows : List NewsRow) : List (String × ℚ) :=
  (heatBuckets rows).map (fun e => (e.1, if 0 < e.2.2 then e.2.1 / (e.2.2 : ℚ) else 0))

/- Reference quantities used to state what the aggregation computes. -/

/-- Sentiment that a single (already deduplicated) row contributes to the
bucket of location loc: its sentiment, when present, the row's location
is loc, and loc is not the sentinel. -/
def rowContrib (loc : String) (r : NewsRow) : Option ℚ :=
  match r.sentiment with
  | none => none
  | some s => if locOf r = "Unknown" then none else if locOf r = loc then some s else none

/-- All sentiment values contributed to the bucket of loc by a row list. -/
def contribs (loc : String) (rows : List NewsRow) : List ℚ :=
  rows.filterMap (rowContrib loc)

/-- Association-list lookup on the bucket list. -/
def lookupLoc (loc : String) : List (String × ℚ × ℕ) → Option (ℚ × ℕ)
  | [] => none
  | (k, v) :: rest => if k = loc then some v else lookupLoc loc rest

/-- One accumulation step on an optional bucket value. -/
def bump : Option (ℚ × ℕ) → ℚ → Option (ℚ × ℕ)
  | none, s => some (s, 1)
  | some (sm, c), s => some (sm + s, c + 1)

/-- Folding a list of contributions into an optional bucket value. -/
def combineAll (o : Option (ℚ × ℕ)) (cs : List ℚ) : Option (ℚ × ℕ) := cs.foldl bump o

/-- Keys of a bucket list. -/
def bucketKeys (bs : List (String × ℚ × ℕ)) : List String := bs.map Prod.fst

/-- Fold one optional contribution into an optional bucket value. -/
def bumpOpt (o : Option (ℚ × ℕ)) : Option ℚ → Option (ℚ × ℕ)
  | none => o
  | some s => bump o s

/-- A stored row whose location is the empty string (and whose sentiment
is present): src/main.py only skips the literal sentinel "Unknown". -/
def rowEmptyLoc : NewsRow := { title := some "a", location := some "", sentiment := some 1 }

/-- A single well-formed stored row, used as a concrete witness input. -/
def rowsParis : List NewsRow :=
  [{ title := some "t", location := some "Paris", sentiment := some 1 }]

/- ## RSS feed parsing and merging (src/rss_feeds.py) -/

/-- One feed entry as seen by parse_single_feed, with the external
capabilities already applied: cities is the GeoText extraction from
title + summary + description, and summary / image_url are the cleaned
and (when needed) page-enriched values. -/
structure FeedEntry where
  title : String
  link : String
  source : String
  published : String
  summary : String
  cities : List String
  image_url : Option String
deriving DecidableEq

/-- Python (src/rss_feeds.py:197-198):
cities = [city for city in cities if city in normalized_tracked].
Despite the parameter name, the membership test is plain, exact,
case-sensitive string membership; no normalization is applied anywhere. -/
def filterCities (cities : List String) (tracked : List String) (filterOn : Bool) : List String :=
  if filterOn then cities.filter (fun c => tracked.contains c) else cities

/-- Modelled from the spec: the case- and separator-normalization the spec
asserts ("New York City" and "New_York_City" must match the same tracked
entry): underscores mapped to spaces and letters lowercased, character by
character.  Stated only to compare with the code, which performs no
normalization. -/
def specNormalize (s : String) : List Char :=
  s.data.map (fun ch => if ch = '_' then ' ' else ch.toLower)

/-- Modelled from the spec: keep an entry when some extracted place matches
some tracked entry under specNormalize. -/
def specNormKept (cities tracked : List String) : Bool :=
  cities.any (fun c => tracked.any (fun t => specNormalize c = specNormalize t))

/-- The article value stored into articles_dict for one entry. -/
structure FeedArticle where
  title : String
  link : String
  source : String
  published : String
  summary : String
  locations : List String
  image_url : Option String
deriving DecidableEq

/-- The record built by parse_single_feed for one entry; the Python
set(cities) is modelled by removing duplicates, keeping first
occurrences. -/
def mkArticle (e : FeedEntry) (cities : List String) : FeedArticle :=
  { title := e.title, link := e.link, source := e.source, published := e.published,
    summary := e.summary, locations := cities.eraseDups, image_url := e.image_url }

/-- Python dict assignment articles_dict[link] = a: replace an existing
binding in place, else append. -/
def dictInsert : List (String × FeedArticle) → String → FeedArticle → List (String × FeedArticle)
  | [], link, a => [(link, a)]
  | (k, v) :: rest, link, a =>
    if k = link then (k, a) :: rest else (k, v) :: dictInsert rest link a

/-- One iteration of the entry loop of parse_single_feed either processes a
well-formed entry or raises (a malformed entry, a network error outside
the inner handlers); the surrounding try/except then stops the loop. -/
inductive EntryStep where
  | entry (e : FeedEntry)
  | raiseErr
deriving DecidableEq

/-- Outcome of fetching one source: either the fetch itself fails (the
feed fetch or the future raises or times out) or it yields a list of
entry-processing steps. -/
inductive SourceOutcome where
  | fetchError
  | fetched (steps : List EntryStep)
deriving DecidableEq

/-- Entry loop of parse_single_feed accumulating articles_dict; an
exception stops the loop with the dict as accumulated so far. -/
def processSteps (tracked : List String) (filterOn : Bool) :
    List EntryStep → List (String × FeedArticle) → List (String × FeedArticle)
  | [], acc => acc
  | .raiseErr :: _, acc => acc
  | .entry e :: rest, acc =>
    let cities := filterCities e.cities tracked filterOn
    if cities = [] then processSteps tracked filterOn rest acc
    else processSteps tracked filterOn rest (dictInsert acc e.link (mkArticle e cities))

/-- parse_single_feed (src/rss_feeds.py:169-271): the whole body runs in a
try/except, so a fetch error yields the empty dict and an entry-level
error yields the dict accumulated before it. -/
def parse_single_feed (src : SourceOutcome) (tracked : List String) (filterOn : Bool) :
    List (String × FeedArticle) :=
  match src with
  | .fetchError => []
  | .fetched steps => processSteps tracked filterOn steps []

/-- Python set.update on location sets, modelled at the membership level:
append the elements not already present. -/
def locUnion (a b : List String) : List String := a ++ b.filter (fun x => !a.contains x)

/-- Merge step of parse_feeds_by_city (src/rss_feeds.py:328-333): an
already-present link keeps all its fields and unions the locations; a new
link is appended. -/
def mergeArticle : List (String × FeedArticle) → String → FeedArticle → List (String × FeedArticle)
  | [], link, a => [(link, a)]
  | (k, v) :: rest, link, a =>
    if k = link then (k, { v with locations := locUnion v.locations a.locations }) :: rest
    else (k, v) :: mergeArticle rest link a

/-- Merge one source's article dict into the accumulated dict. -/
def mergeFeed (acc : List (String × FeedArticle)) (feed : List (String × FeedArticle)) :
    List (String × FeedArticle) :=
  feed.foldl (fun acc p => mergeArticle acc p.1 p.2) acc

/-- Merge all per-source dicts.  The thread pool completes sources in a
nondeterministic order; the list order given here stands for whichever
completion order occurred. -/
def mergeAll (feeds : List (List (String × FeedArticle))) : List (String × FeedArticle) :=
  feeds.foldl mergeFeed []

/-- State of the rss_feeds.txt source-list file. -/
inductive FeedsFile where
  | missing
  | readError
  | content (lines : List String)
deriving DecidableEq

/-- load_rss_feeds (src/rss_feeds.py:12-42): a missing file or a read error
is caught and yields the empty list; otherwise each line is stripped and
kept when non-empty and not a comment line. -/
def load_rss_feeds : FeedsFile → List String
  | .missing => []
  | .readError => []
  | .content lines =>
    lines.filterMap (fun line =>
      let url := line.trim
      if url = "" then none
      else if url.startsWith "#" then none
      else some url)

/-- parse_feeds_by_city (src/rss_feeds.py:273-353): load the source list;
when it is empty return immediately with no articles; otherwise parse
every source (each isolated by its own try/except) and merge the
per-source dicts. -/
def parse_feeds_by_city (fetch : String → SourceOutcome) (file : FeedsFile)
    (tracked : List String) (filterOn : Bool) : List (String × FeedArticle) :=
  let feeds := load_rss_feeds file
  if feeds = [] then []
  else mergeAll (feeds.map (fun u => parse_single_feed (fetch u) tracked filterOn))

/-- A concrete feed entry mentioning a tracked city, from a first source. -/
def entryA : FeedEntry :=
  { title := "a", link := "https://a", source := "s1", published := "p",
    summary := "sa", cities := ["Paris"], image_url := none }

/-- A concrete feed entry mentioning a tracked city, from a second source. -/
def entryB : FeedEntry :=
  { title := "b", link := "https://b", source := "s2", published := "p",
    summary := "sb", cities := ["Paris"], image_url := none }

/- ## Article image selection (extract_article_content, src/rss_feeds.py:56-110) -/

/-- One img element of the fetched page, as the selection loop sees it:
src is the already-resolved candidate URL (src, data-src or data-lazy-src,
made absolute by urljoin), absent when none of the three attributes is
present; width and height are none when not declared, some none when
declared but not parseable as an integer (Python int() raises), and
some (some n) when declared as the integer n. -/
structure PageImg where
  src : Option String
  alt : String
  classes : List String
  idAttr : String
  width : Option (Option ℤ)
  height : Option (Option ℤ)
deriving DecidableEq

/-- The fixed exclude vocabulary of extract_article_content. -/
def exclude_patterns : List String :=
  ["logo", "icon", "header", "banner", "avatar", "profile", "badge",
   "favicon", "sprite", "placeholder", "default", "fallback",
   "navigation", "nav", "menu", "social", "share", "button", "btn",
   "arrow", "bullet", "thumbnail", "thumb", "ad", "advertisement",
   "widget", "sidebar", "footer", "sponsor"]

/-- Contiguous sublist test used to model the Python substring operator. -/
def subCheck (n : List Char) : List Char → Bool
  | [] => n.isEmpty
  | c :: rest => n.isPrefixOf (c :: rest) || subCheck n rest

/-- Substring test (Python in on strings), on character lists. -/
def containsSubL (needle : String) (hay : List Char) : Bool := subCheck needle.data hay

/-- Python str.lower, character-wise (the attribute values involved are
ASCII). -/
def lowerStr (s : String) : List Char := s.data.map Char.toLower

/-- Python startswith on the raw URL. -/
def startsWithL (p : String) (s : String) : Bool := p.data.isPrefixOf s.data

/-- Python ' '.join(img.get('class', [])). -/
def joinClasses (cs : List String) : String := String.intercalate " " cs

/-- Dimension checks of the image loop.  Both `if width and int(width) < 200`
and `if height and int(height) < 150` run inside one try/except
(ValueError, TypeError): pass — so a width attribute whose int() parse
raises aborts both checks and the image is not skipped for dimensions. -/
def dimensionOk (img : PageImg) : Bool :=
  match img.width with
  | some none => true
  | some (some w) =>
    if w < 200 then false
    else
      match img.height with
      | some none => true
      | some (some h) => if h < 150 then false else true
      | none => true
  | none =>
    match img.height with
    | some none => true
    | some (some h) => if h < 150 then false else true
    | none => true

/-- Survival predicate of the image loop of extract_article_content: a
usable URL that is not a data URI or .svg/.gif, matches no exclude
pattern in its lowercased URL, alt text, joined class list, or id, and
passes the dimension checks. -/
def imgPasses (img : PageImg) : Bool :=
  match img.src with
  | none => false
  | some u =>
    if startsWithL "data:" u then false
    else if ".svg".data.isSuffixOf (lowerStr u) then false
    else if ".gif".data.isSuffixOf (lowerStr u) then false
    else if exclude_patterns.any (fun p =>
        containsSubL p (lowerStr u) || containsSubL p (lowerStr img.alt) ||
        containsSubL p (lowerStr (joinClasses img.classes)) ||
        containsSubL p (lowerStr img.idAttr)) then false
    else dimensionOk img

/-- Image-selection phase of extract_article_content: scan the page images
in document order and return the first survivor's URL, else none. -/
def extract_article_image (imgs : List PageImg) : Option String :=
  match imgs.find? imgPasses with
  | some img => img.src
  | none => none

/-- An image with an unparseable width attribute and a small declared
height (e.g. img width="N/A" height="50"). -/
def imgBadDims : PageImg :=
  { src := some "https://x/pic.jpg", alt := "", classes := [], idAttr := "",
    width := some none, height := some (some 50) }

/-- An img class="logo" element. -/
def imgLogo : PageImg :=
  { src := some "https://x/a.jpg", alt := "", classes := ["logo"], idAttr := "",
    width := none, height := none }

/-- An img width="50" element. -/
def imgSmall : PageImg :=
  { src := some "https://x/b.jpg", alt := "", classes := [], idAttr := "",
    width := some (some 50), height := none }

/-- A qualifying image appearing later in the document. -/
def imgGood : PageImg :=
  { src := some "https://x/good.jpg", alt := "", classes := [], idAttr := "",
    width := some (some 640), height := some (some 480) }

/- ## Freshness filter and ingestion orchestrator (src/news_scheduler.py) -/

/-- The published field of an article as the freshness check sees it:
absent (missing, empty or the literal "Unknown" default), a string the
external date parser rejects, or a parsed timezone-aware instant
(seconds). -/
inductive PublishedField where
  | missing
  | unparseable
  | parsed (t : ℤ)
deriving DecidableEq

/-- Freshness decision of fetch_and_save_rss_articles
(src/news_scheduler.py:56-81): reject when the published field is absent
or unparseable, or when now - published exceeds 24 hours. -/
def freshAccept : PublishedField → ℤ → Bool
  | .missing, _ => false
  | .unparseable, _ => false
  | .parsed t, now => decide (now - t ≤ 24 * 3600)

/-- A stored news row as the duplicate checks see it. -/
structure DbRow where
  url : Option String
  title : String
deriving DecidableEq

/-- Non-emptiness of the supabase query eq("url", u) over the news table. -/
def existsByUrl (db : List DbRow) (u : String) : Bool :=
  db.any (fun r => decide (r.url = some u))

/-- Non-emptiness of the supabase query eq("title", t) over the news table. -/
def existsByTitle (db : List DbRow) (t : String) : Bool :=
  db.any (fun r => decide (r.title = t))

/-- Duplicate gate of fetch_and_save_rss_articles
(src/news_scheduler.py:109-121): the URL existence check runs only for a
truthy URL (neither None nor empty); the title check always runs;
insertion happens only when neither performed check found a row. -/
def shouldInsert (db : List DbRow) (url : Option String) (title : String) : Bool :=
  let blockedByUrl :=
    match url with
    | none => false
    | some u => if u = "" then false else existsByUrl db u
  !blockedByUrl && !existsByTitle db title

/-- An article as the saving loop sees it, the external date parse already
applied to its published string. -/
structure IngestArticle where
  title : String
  url : Option String
  locations : List String
  published : PublishedField
deriving DecidableEq

/-- The structured result of one ingestion run. -/
structure IngestStats where
  saved_count : ℕ
  total_articles : ℕ
  errors : List String
deriving DecidableEq

/-- The per-article saving loop of fetch_and_save_rss_articles: skip on an
empty location list, on freshness rejection, or on a duplicate; insert
otherwise, threading the news table. -/
def saveLoop (now : ℤ) : List IngestArticle → List DbRow → ℕ → ℕ × List DbRow
  | [], db, saved => (saved, db)
  | a :: rest, db, saved =>
    if a.locations = [] then saveLoop now rest db saved
    else if freshAccept a.published now = false then saveLoop now rest db saved
    else if shouldInsert db a.url a.title then
      saveLoop now rest (db ++ [{ url := a.url, title := a.title }]) (saved + 1)
    else saveLoop now rest db saved

/-- fetch_and_save_rss_articles (src/news_scheduler.py:27-134): the parse
step runs inside try/except; a raising parse yields zero saved, zero
total and the single caught error; otherwise the saving loop runs.  The
per-article failure paths (scoring or repository exceptions) do not occur
in this total model, so the ok branch carries an empty error list. -/
def fetch_and_save_rss_articles (parseOutcome : Except String (List IngestArticle))
    (db : List DbRow) (now : ℤ) : IngestStats :=
  match parseOutcome with
  | .error msg =>
    { saved_count := 0, total_articles := 0, errors := ["Error parsing RSS feeds: " ++ msg] }
  | .ok articles =>
    { saved_count := (saveLoop now articles db 0).1,
      total_articles := articles.length,
      errors := [] }

/-- Conversion from the merged article dict to the saving loop's view,
applying the external date parser to the published strings. -/
def toIngest (parseDate : String → PublishedField) (arts : List (String × FeedArticle)) :
    List IngestArticle :=
  arts.map (fun p =>
    { title := p.2.title, url := some p.2.link, locations := p.2.locations,
      published := parseDate p.2.published })

/-- The whole ingestion run: load the source list, parse and merge the
feeds, then save.  parse_feeds_by_city catches its internal errors and
returns normally, so on this path the parse outcome is always ok. -/
def runIngest (file : FeedsFile) (fetch : String → SourceOutcome) (tracked : List String)
    (parseDate : String → PublishedField) (db : List DbRow) (now : ℤ) : IngestStats :=
  fetch_and_save_rss_articles
    (Except.ok (toIngest parseDate (parse_feeds_by_city fetch file tracked true))) db now

/-- A concrete one-row news table. -/
def dbSample : List DbRow := [{ url := some "https://u1", title := "T" }]

/- ## Geocode cache-aside resolver (src/geo_utils.py) -/

/-- Outcome of one external geocoder call for a location. -/
inductive GeoResult where
  | found (lat lon : ℚ)
  | notFound
  | timedOut
  | serviceErr
deriving DecidableEq

/-- get_cached_coordinates (src/geo_utils.py:12-31): lookup of the
location_cache table by exact location name. -/
def get_cached_coordinates : List (String × ℚ × ℚ) → String → Option (ℚ × ℚ)
  | [], _ => none
  | (k, c) :: rest, location =>
    if k = location then some c else get_cached_coordinates rest location

/-- cache_coordinates (src/geo_utils.py:34-57): supabase upsert keyed by
location — replace the existing row in place or append a new one. -/
def cache_coordinates : List (String × ℚ × ℚ) → String → ℚ → ℚ → List (String × ℚ × ℚ)
  | [], location, lat, lon => [(location, lat, lon)]
  | (k, c) :: rest, location, lat, lon =>
    if k = location then (k, lat, lon) :: rest
    else (k, c) :: cache_coordinates rest location lat lon

/-- Observable outcome of one call of geocode_and_cache_location: the
returned value, the cache state afterwards, and the number of external
geocoder invocations made. -/
structure GeoOutcome where
  result : Option (ℚ × ℚ)
  cache : List (String × ℚ × ℚ)
  calls : ℕ
deriving DecidableEq

/-- geocode_and_cache_location (src/geo_utils.py:60-99): reject "" and
"Unknown" before any I/O; then cache lookup; on a miss call the geocoder
once, upserting only a successful result; timeouts, service errors and
not-found are caught and yield none with the cache unchanged. -/
def geocode_and_cache_location (cache : List (String × ℚ × ℚ))
    (geocoder : String → GeoResult) (location : String) : GeoOutcome :=
  if location = "" ∨ location = "Unknown" then ⟨none, cache, 0⟩
  else
    match get_cached_coordinates cache location with
    | some c => ⟨some c, cache, 0⟩
    | none =>
      match geocoder location with
      | .found lat lon => ⟨some (lat, lon), cache_coordinates cache location lat lon, 1⟩
      | _ => ⟨none, cache, 1⟩

/-- A concrete geocoder for the cache-aside witness. -/
def geoSample : String → GeoResult :=
  fun l => if l = "Paris" then GeoResult.found 1 2 else GeoResult.notFound

/- ## Lemmas about the heatmap accumulation -/

theorem lookupLoc_addToBucket (acc : List (String × ℚ × ℕ)) (l loc : String) (s : ℚ) :
    lookupLoc l (addToBucket acc loc s) =
      if l = loc then bump (lookupLoc l acc) s else lookupLoc l acc := by
  induction acc with
  | nil =>
    by_cases h : l = loc
    · subst h; simp [addToBucket, lookupLoc, bump]
    · simp [addToBucket, lookupLoc, bump, h, Ne.symm h]
  | cons hd rest ih =>
    obtain ⟨k, sm, c⟩ := hd
    by_cases hk : k = loc
    · subst hk
      by_cases hl : l = k
      · subst hl; simp [addToBucket, lookupLoc, bump]
      · simp [addToBucket, lookupLoc, bump, hl, Ne.symm hl]
    · by_cases hl : k = l
      · subst hl
        have hne : ¬ k = loc := hk
        simp [addToBucket, lookupLoc, bump, hk, Ne.symm hk]
      · simp [addToBucket, lookupLoc, hk, hl, ih]

theorem lookupLoc_stepRow (acc : List (String × ℚ × ℕ)) (l : String) (r : NewsRow) :
    lookupLoc l (stepRow acc r) = bumpOpt (lookupLoc l acc) (rowContrib l r) := by
  cases hs : r.sentiment with
  | none => simp [stepRow, rowContrib, hs, bumpOpt]
  | some s =>
    by_cases hu : locOf r = "Unknown"
    · simp [stepRow, rowContrib, hs, hu, bumpOpt]
    · by_cases hl : locOf r = l
      · subst hl
        simp only [stepRow, rowContrib, hs, if_neg hu, if_pos rfl]
        rw [lookupLoc_addToBucket]
        simp [bumpOpt]
      · simp only [stepRow, rowContrib, hs, if_neg hu, if_neg hl]
        rw [lookupLoc_addToBucket]
        have hne : ¬ l = locOf r := fun h => hl h.symm
        rw [if_neg hne]
        simp [bumpOpt]

theorem lookupLoc_foldl (l : String) (rows : List NewsRow) :
    ∀ acc, lookupLoc l (rows.foldl stepRow acc) = combineAll (lookupLoc l acc) (contribs l rows) := by
  induction rows with
  | nil => intro acc; simp [contribs, combineAll]
  | cons r rest ih =>
    intro acc
    rw [List.foldl_cons, ih, lookupLoc_stepRow]
    cases hc : rowContrib l r with
    | none => simp [contribs, List.filterMap_cons, hc, bumpOpt]
    | some s => simp [contribs, List.filterMap_cons, hc, bumpOpt, combineAll]

theorem combineAll_some (cs : List ℚ) :
    ∀ (sm : ℚ) (c : ℕ), combineAll (some (sm, c)) cs = some (sm + cs.sum, c + cs.length) := by
  induction cs with
  | nil => intro sm c; simp [combineAll]
  | cons s cs ih =>
    intro sm c
    have hstep : combineAll (some (sm, c)) (s :: cs) = combineAll (some (sm + s, c + 1)) cs := rfl
    rw [hstep, ih]
    simp only [List.sum_cons, List.length_cons, Option.some.injEq, Prod.mk.injEq]
    constructor
    · ring_nf
    · omega

theorem combineAll_none (cs : List ℚ) :
    combineAll none cs = if cs = [] then none else some (cs.sum, cs.length) := by
  cases cs with
  | nil => simp [combineAll]
  | cons s cs =>
    have hstep : combineAll none (s :: cs) = combineAll (some (s, 1)) cs := rfl
    rw [hstep, combineAll_some]
    simp only [List.sum_cons, List.length_cons, List.cons_ne_self]
    simp only [if_neg (List.cons_ne_nil s cs), Option.some.injEq, Prod.mk.injEq]
    constructor
    · ring_nf
    · omega

theorem bucketKeys_addToBucket (acc : List (String × ℚ × ℕ)) (loc : String) (s : ℚ) :
    bucketKeys (addToBucket acc loc s) =
      if loc ∈ bucketKeys acc then bucketKeys acc else bucketKeys acc ++ [loc] := by
  induction acc with
  | nil => simp [addToBucket, bucketKeys]
  | cons hd rest ih =>
    obtain ⟨k, sm, c⟩ := hd
    by_cases hk : k = loc
    · subst hk; simp [addToBucket, bucketKeys]
    · simp only [addToBucket, if_neg hk, bucketKeys, List.map_cons]
      simp only [bucketKeys] at ih
      by_cases hmem : loc ∈ List.map Prod.fst rest
      · rw [if_pos (List.mem_cons_of_mem _ hmem), ih, if_pos hmem]
      · have h1 : loc ∉ k :: List.map Prod.fst rest := by
          intro hc
          rcases List.mem_cons.1 hc with hc | hc
          · exact hk hc.symm
          · exact hmem hc
        rw [if_neg h1, ih, if_neg hmem]
        simp

theorem bucketKeys_nodup_addToBucket (acc : List (String × ℚ × ℕ)) (loc : String) (s : ℚ)
    (h : (bucketKeys acc).Nodup) : (bucketKeys (addToBucket acc loc s)).Nodup := by
  rw [bucketKeys_addToBucket]
  by_cases hmem : loc ∈ bucketKeys acc
  · simpa [hmem] using h
  · simp only [hmem, if_false]
    rw [List.nodup_append]
    exact ⟨h, List.nodup_singleton loc, by simpa [List.Disjoint] using fun a ha hl => hmem (by simpa [hl] using ha)⟩

theorem bucketKeys_nodup_stepRow (acc : List (String × ℚ × ℕ)) (r : NewsRow)
    (h : (bucketKeys acc).Nodup) : (bucketKeys (stepRow acc r)).Nodup := by
  unfold stepRow
  cases r.sentiment with
  | none => exact h
  | some s =>
    by_cases hu : locOf r = "Unknown"
    · simpa [hu] using h
    · simpa [hu] using bucketKeys_nodup_addToBucket acc (locOf r) s h

theorem bucketKeys_nodup_foldl (rows : List NewsRow) :
    ∀ acc, (bucketKeys acc).Nodup → (bucketKeys (rows.foldl stepRow acc)).Nodup := by
  induction rows with
  | nil => intro acc h; simpa using h
  | cons r rest ih =>
    intro acc h
    rw [List.foldl_cons]
    exact ih _ (bucketKeys_nodup_stepRow acc r h)

theorem heatBuckets_keys_nodup (rows : List NewsRow) : (bucketKeys (heatBuckets rows)).Nodup := by
  unfold heatBuckets
  exact bucketKeys_nodup_foldl _ [] (by simp [bucketKeys])

theorem mem_iff_lookupLoc : ∀ (bs : List (String × ℚ × ℕ)), (bucketKeys bs).Nodup →
    ∀ (l : String) (v : ℚ × ℕ), ((l, v) ∈ bs ↔ lookupLoc l bs = some v) := by
  intro bs
  induction bs with
  | nil => intro _ l v; simp [lookupLoc]
  | cons hd rest ih =>
    intro hnd l v
    obtain ⟨k, w⟩ := hd
    rw [bucketKeys, List.map_cons, List.nodup_cons] at hnd
    obtain ⟨hk, hnd2⟩ := hnd
    have ih2 := ih (by simpa [bucketKeys] using hnd2)
    by_cases hkl : k = l
    · subst hkl
      constructor
      · intro hmem
        rcases List.mem_cons.1 hmem with heq | hmem
        · rw [Prod.mk.injEq] at heq
          simp [lookupLoc, heq.2]
        · exact absurd (List.mem_map_of_mem Prod.fst hmem) hk
      · intro hw
        simp [lookupLoc] at hw
        exact List.mem_cons.2 (Or.inl (by rw [hw]))
    · simp only [lookupLoc, if_neg hkl, List.mem_cons]
      rw [← ih2 l v]
      constructor
      · rintro (heq | hmem)
        · exact absurd (congrArg Prod.fst heq).symm hkl
        · exact hmem
      · exact fun hmem => Or.inr hmem

theorem counts_pos_addToBucket (acc : List (String × ℚ × ℕ)) (loc : String) (s : ℚ)
    (h : ∀ e ∈ acc, 1 ≤ e.2.2) : ∀ e ∈ addToBucket acc loc s, 1 ≤ e.2.2 := by
  induction acc with
  | nil => intro e he; simp [addToBucket] at he; simp [he]
  | cons hd rest ih =>
    obtain ⟨k, sm, c⟩ := hd
    intro e he
    by_cases hk : k = loc
    · simp [addToBucket, hk] at he
      rcases he with he | he
      · simp [he]
      · exact h e (by simp [he])
    · simp [addToBucket, hk] at he
      rcases he with he | he
      · have := h (k, sm, c) (by simp)
        simp [he]
        simpa using this
      · exact ih (fun e2 he2 => h e2 (by simp [he2])) e he

theorem counts_pos_stepRow (acc : List (String × ℚ × ℕ)) (r : NewsRow)
    (h : ∀ e ∈ acc, 1 ≤ e.2.2) : ∀ e ∈ stepRow acc r, 1 ≤ e.2.2 := by
  unfold stepRow
  cases r.sentiment with
  | none => exact h
  | some s =>
    by_cases hu : locOf r = "Unknown"
    · simpa [hu] using h
    · simpa [hu] using counts_pos_addToBucket acc (locOf r) s h

theorem counts_pos_foldl (rows : List NewsRow) :
    ∀ acc, (∀ e ∈ acc, 1 ≤ e.2.2) → ∀ e ∈ rows.foldl stepRow acc, 1 ≤ e.2.2 := by
  induction rows with
  | nil => intro acc h; simpa using h
  | cons r rest ih =>
    intro acc h
    rw [List.foldl_cons]
    exact ih _ (counts_pos_stepRow acc r h)

theorem counts_pos_heatBuckets (rows : List NewsRow) : ∀ e ∈ heatBuckets rows, 1 ≤ e.2.2 := by
  unfold heatBuckets
  exact counts_pos_foldl _ [] (by simp)

theorem lookupLoc_heatBuckets (rows : List NewsRow) (loc : String) :
    lookupLoc loc (heatBuckets rows) = combineAll none (contribs loc (dedupByTitle rows)) := by
  unfold heatBuckets
  rw [lookupLoc_foldl]
  rfl

/- ## Claim theorems -/

/-- C1 counterexample.  The claim says the aggregation accumulates into the
bucket of every place in the article's place list excluding "Unknown" and
empty names.  In the code (src/main.py get_heatmap) each row carries a
single location field and only the literal sentinel "Unknown" is skipped:
a row whose location is the empty string is accumulated, and the empty
name appears in the output with intensity equal to its sentiment. -/
theorem heatmap_empty_location_reported : get_heatmap [rowEmptyLoc] = [("", 1)] := by
  have h1 : heatBuckets [rowEmptyLoc] = [("", 1, 1)] := by decide
  unfold get_heatmap
  rw [h1]
  norm_num

/-- C1 (amended).  get_heatmap deduplicates rows by title (first stored
occurrence wins; rows with an absent or empty title are dropped), and for
each surviving row with a non-null sentiment and a location other than
the sentinel "Unknown" (an empty-string location included) it adds the
sentiment into that single location's bucket; (loc, q) is an output entry
exactly when loc has at least one qualifying row and q is the mean of the
qualifying sentiments; a location with zero qualifying rows never
appears. -/
theorem heatmap_intensity_characterization (rows : List NewsRow) (loc : String) (q : ℚ) :
    (loc, q) ∈ get_heatmap rows ↔
      contribs loc (dedupByTitle rows) ≠ [] ∧
        q = (contribs loc (dedupByTitle rows)).sum /
              ((contribs loc (dedupByTitle rows)).length : ℚ) := by
  have hlk := lookupLoc_heatBuckets rows loc
  have hnd := heatBuckets_keys_nodup rows
  constructor
  · intro hmem
    unfold get_heatmap at hmem
    rw [List.mem_map] at hmem
    obtain ⟨e, he, hfe⟩ := hmem
    simp only [Prod.mk.injEq] at hfe
    obtain ⟨hk, hq⟩ := hfe
    have hlkp : lookupLoc loc (heatBuckets rows) = some e.2 := by
      rw [← hk]
      exact (mem_iff_lookupLoc _ hnd e.1 e.2).1 (by rw [Prod.mk.eta]; exact he)
    rw [hlk, combineAll_none] at hlkp
    by_cases hcs : contribs loc (dedupByTitle rows) = []
    · rw [if_pos hcs] at hlkp
      exact absurd hlkp (by simp)
    · rw [if_neg hcs, Option.some.injEq] at hlkp
      refine ⟨hcs, ?_⟩
      have hlen : 0 < e.2.2 := by
        rw [← hlkp]
        exact List.length_pos.2 hcs
      rw [if_pos hlen] at hq
      rw [← hq, ← hlkp]
  · rintro ⟨hne, hq⟩
    have hsome : lookupLoc loc (heatBuckets rows) =
        some ((contribs loc (dedupByTitle rows)).sum, (contribs loc (dedupByTitle rows)).length) := by
      rw [hlk, combineAll_none, if_neg hne]
    have hmem := (mem_iff_lookupLoc _ hnd loc _).2 hsome
    unfold get_heatmap
    rw [List.mem_map]
    refine ⟨(loc, (contribs loc (dedupByTitle rows)).sum, (contribs loc (dedupByTitle rows)).length),
      hmem, ?_⟩
    have hpos : 0 < (contribs loc (dedupByTitle rows)).length := List.length_pos.2 hne
    simp only [if_pos hpos]
    rw [Prod.mk.injEq]
    exact ⟨rfl, hq.symm⟩

/-- C10.  In get_heatmap, every per-location bucket is created with its
count already incremented to 1 in the very step that creates it, so every
bucket has count at least 1, and the guarded division (intensity 0 when
count is 0) never takes its fallback branch: the reported intensities
coincide with the unguarded means sum / count. -/
theorem heatmap_bucket_count_positive (rows : List NewsRow) :
    (∀ e ∈ heatBuckets rows, 1 ≤ e.2.2) ∧
      get_heatmap rows = (heatBuckets rows).map (fun e => (e.1, e.2.1 / (e.2.2 : ℚ))) := by
  refine ⟨counts_pos_heatBuckets rows, ?_⟩
  unfold get_heatmap
  apply List.map_congr_left
  intro e he
  have h1 := counts_pos_heatBuckets rows e he
  rw [if_pos (by omega : 0 < e.2.2)]

/-- C10 witness: the C10 theorem evaluated on a concrete one-row store. -/
theorem heatmap_bucket_count_positive_witness :
    1 ≤ (("Paris", (1 : ℚ), (1 : ℕ)) : String × ℚ × ℕ).2.2 ∧
      get_heatmap rowsParis = (heatBuckets rowsParis).map (fun e => (e.1, e.2.1 / (e.2.2 : ℚ))) :=
  ⟨(heatmap_bucket_count_positive rowsParis).1 ("Paris", (1 : ℚ), (1 : ℕ)) (by decide),
   (heatmap_bucket_count_positive rowsParis).2⟩

/-- C2 counterexample.  The claim says extracted places are intersected
with the tracked set under case- and separator-normalization.  The code
uses plain string membership: the extracted name New_York does not match
the tracked entry New York, so the entry is discarded, although under the
normalization the spec describes they match. -/
theorem tracked_filter_no_normalization :
    filterCities ["New_York"] ["New York"] true = [] ∧
      specNormKept ["New_York"] ["New York"] = true := by
  constructor
  · rfl
  · decide

/-- C2 helper: a city surviving the enabled filter is an exact member of
both lists. -/
theorem mem_filterCities {c : String} {cities tracked : List String}
    (hc : c ∈ filterCities cities tracked true) : c ∈ cities ∧ c ∈ tracked := by
  rw [filterCities, if_pos rfl] at hc
  have h2 := List.mem_filter.1 hc
  exact ⟨h2.1, by simpa using h2.2⟩

/-- C2 (amended).  When filtering is enabled, the extracted place list is
intersected with the tracked set under exact, case-sensitive string
equality (no normalization), and the entry is discarded (contributes no
article) exactly when none of its extracted places is literally a member
of the tracked set. -/
theorem tracked_filter_exact_match (e : FeedEntry) (tracked : List String) :
    processSteps tracked true [EntryStep.entry e] [] = [] ↔ ∀ c ∈ e.cities, c ∉ tracked := by
  constructor
  · intro h c hc ht
    by_cases hf : filterCities e.cities tracked true = []
    · have hmem : c ∈ filterCities e.cities tracked true := by
        rw [filterCities, if_pos rfl]
        exact List.mem_filter.2 ⟨hc, by simpa using ht⟩
      rw [hf] at hmem
      exact absurd hmem (List.not_mem_nil c)
    · have hne : processSteps tracked true [EntryStep.entry e] [] =
          [(e.link, mkArticle e (filterCities e.cities tracked true))] := by
        simp [processSteps, hf, dictInsert]
      rw [hne] at h
      simp at h
  · intro hall
    have hf : filterCities e.cities tracked true = [] := by
      by_contra hne
      obtain ⟨c, hc⟩ := List.exists_mem_of_ne_nil _ hne
      have h2 := mem_filterCities hc
      exact absurd h2.2 (hall c h2.1)
    simp [processSteps, hf]

/-- C5.  Two sources yielding entries with the same link merge into exactly
one article for that link: its location set is the union of the two
sources' location sets and every other field comes from the copy that was
merged first. -/
theorem merge_same_link_union (L : String) (a1 a2 : FeedArticle) :
    mergeAll [[(L, a1)], [(L, a2)]] =
      [(L, { a1 with locations := locUnion a1.locations a2.locations })] ∧
      ∀ p, (p ∈ locUnion a1.locations a2.locations ↔ p ∈ a1.locations ∨ p ∈ a2.locations) := by
  constructor
  · simp [mergeAll, mergeFeed, mergeArticle]
  · intro p
    by_cases h : p ∈ a1.locations <;> simp [locUnion, h]

/-- C8 counterexample.  The claim says a source that fails while being
processed contributes zero entries to the merged article list.  In the
code, the try/except in parse_single_feed returns the partially filled
dict: a source raising after its first entry still contributes that
entry to the merge. -/
theorem failed_source_partial_contribution :
    parse_single_feed (SourceOutcome.fetched [EntryStep.entry entryB, EntryStep.raiseErr])
        ["Paris"] true = [("https://b", mkArticle entryB ["Paris"])] ∧
      mergeAll
          [parse_single_feed (SourceOutcome.fetched [EntryStep.entry entryA]) ["Paris"] true,
           parse_single_feed (SourceOutcome.fetched [EntryStep.entry entryB, EntryStep.raiseErr])
             ["Paris"] true] =
        [("https://a", mkArticle entryA ["Paris"]), ("https://b", mkArticle entryB ["Paris"])] := by
  constructor
  · rfl
  · rfl

/-- C8 (amended).  Source processing is isolated: a source whose fetch
fails contributes the empty dict, and removing such a source from the
completion order leaves the merged result of the other sources unchanged;
a source that raises partway through its entry loop contributes exactly
the entries it accumulated before the failure (so not necessarily zero
entries). -/
theorem source_isolation (tracked : List String) (filterOn : Bool)
    (pre : List FeedEntry) (post : List EntryStep)
    (before after : List (List (String × FeedArticle))) :
    parse_single_feed SourceOutcome.fetchError tracked filterOn = [] ∧
      mergeAll (before ++ [] :: after) = mergeAll (before ++ after) ∧
      parse_single_feed (SourceOutcome.fetched (pre.map EntryStep.entry ++ EntryStep.raiseErr :: post))
          tracked filterOn =
        parse_single_feed (SourceOutcome.fetched (pre.map EntryStep.entry)) tracked filterOn := by
  refine ⟨rfl, ?_, ?_⟩
  · simp [mergeAll, List.foldl_append, mergeFeed]
  · show processSteps tracked filterOn (pre.map EntryStep.entry ++ EntryStep.raiseErr :: post) [] =
      processSteps tracked filterOn (pre.map EntryStep.entry) []
    generalize [] = acc
    induction pre generalizing acc with
    | nil => rfl
    | cons e rest ih =>
      simp only [List.map_cons, List.cons_append, processSteps]
      by_cases hf : filterCities e.cities tracked filterOn = []
      · simp only [hf, if_pos]
        exact ih _
      · simp only [hf, if_neg, if_false]
        exact ih _

/-- C3.  The freshness filter rejects an absent or unparseable published
timestamp; a parsed timestamp is accepted exactly when it is at most 24
hours before now; in particular now - 24h - 1s is rejected while
now - 23h is accepted. -/
theorem staleness_boundary (now : ℤ) :
    freshAccept PublishedField.missing now = false ∧
      freshAccept PublishedField.unparseable now = false ∧
      (∀ t, freshAccept (PublishedField.parsed t) now = decide (now - t ≤ 24 * 3600)) ∧
      freshAccept (PublishedField.parsed (now - (24 * 3600 + 1))) now = false ∧
      freshAccept (PublishedField.parsed (now - 23 * 3600)) now = true := by
  refine ⟨rfl, rfl, fun t => rfl, ?_, ?_⟩
  · simp only [freshAccept, decide_eq_false_iff_not]
    omega
  · simp only [freshAccept, decide_eq_true_eq]
    omega

/-- C4.  An accepted article is inserted exactly when no stored row shares
its URL and no stored row shares its title; a match on either check alone
(a title match with a different URL included) blocks the insertion.  The
hypothesis excludes the degenerate empty-string URL, for which the code
skips the URL check entirely. -/
theorem dedup_gate_iff (db : List DbRow) (url : Option String) (title : String)
    (hurl : ∀ u, url = some u → u ≠ "") :
    shouldInsert db url title = true ↔
      ((∀ r ∈ db, ∀ u, url = some u → r.url ≠ some u) ∧ ∀ r ∈ db, r.title ≠ title) := by
  cases url with
  | none =>
    simp only [shouldInsert, existsByTitle, Bool.and_eq_true, Bool.not_eq_eq_eq_not,
      Bool.not_true, List.any_eq_false, decide_eq_false_iff_not, decide_eq_true_eq]
    constructor
    · intro h
      exact ⟨fun r _ u hu => absurd hu (by simp), h.2⟩
    · intro h
      exact ⟨trivial, h.2⟩
  | some u =>
    have hu : ¬ u = "" := hurl u rfl
    simp only [shouldInsert, existsByUrl, existsByTitle, if_neg hu, Bool.and_eq_true,
      Bool.not_eq_eq_eq_not, Bool.not_true, List.any_eq_false, decide_eq_false_iff_not,
      decide_eq_true_eq]
    constructor
    · intro h
      refine ⟨fun r hr u2 hu2 => ?_, h.2⟩
      rw [Option.some.injEq] at hu2
      subst hu2
      exact h.1 r hr
    · intro h
      exact ⟨fun r hr => h.1 r hr u rfl, h.2⟩

/-- C4 witness: with a stored row (url u1, title T), an article with a
different URL u2 but the same title T is blocked by the title check
alone. -/
theorem dedup_gate_iff_witness :
    (∀ u, (some "https://u2" : Option String) = some u → u ≠ "") ∧
      (shouldInsert dbSample (some "https://u2") "T" = true ↔
        ((∀ r ∈ dbSample, ∀ u, (some "https://u2" : Option String) = some u → r.url ≠ some u) ∧
          ∀ r ∈ dbSample, r.title ≠ "T")) := by
  have hu : ∀ u, (some "https://u2" : Option String) = some u → u ≠ "" := by
    intro u h
    injection h with h2
    subst h2
    decide
  exact ⟨hu, dedup_gate_iff dbSample (some "https://u2") "T" hu⟩

/-- C7 counterexample.  The claim says that when the source list cannot be
loaded the run reports zero saved together with exactly one top-level
error string.  In the code load_rss_feeds catches the failure and returns
the empty list, parse_feeds_by_city then returns normally with no
articles, and the run reports zero saved with an EMPTY error list. -/
theorem missing_source_list_zero_errors :
    runIngest FeedsFile.missing (fun _ => SourceOutcome.fetchError) []
        (fun _ => PublishedField.unparseable) [] 0 =
      { saved_count := 0, total_articles := 0, errors := [] } := rfl

/-- C7 (amended).  When the source list cannot be loaded (missing file or
read error), the loader yields the empty list — no partial source list is
substituted — and the whole ingestion run returns the structured result
with zero saved, zero total articles and an empty error list; the failure
is only logged. -/
theorem missing_source_list_degrades (fetch : String → SourceOutcome) (tracked : List String)
    (parseDate : String → PublishedField) (db : List DbRow) (now : ℤ) :
    load_rss_feeds FeedsFile.missing = [] ∧
      load_rss_feeds FeedsFile.readError = [] ∧
      runIngest FeedsFile.missing fetch tracked parseDate db now =
        { saved_count := 0, total_articles := 0, errors := [] } ∧
      runIngest FeedsFile.readError fetch tracked parseDate db now =
        { saved_count := 0, total_articles := 0, errors := [] } :=
  ⟨rfl, rfl, rfl, rfl⟩

/-- C6 helper: reading back an upserted location hits the fresh value. -/
theorem get_cached_after_upsert (cache : List (String × ℚ × ℚ)) (location : String)
    (lat lon : ℚ) :
    get_cached_coordinates (cache_coordinates cache location lat lon) location =
      some (lat, lon) := by
  induction cache with
  | nil => simp [cache_coordinates, get_cached_coordinates]
  | cons hd rest ih =>
    obtain ⟨k, c⟩ := hd
    by_cases hk : k = location
    · simp [cache_coordinates, get_cached_coordinates, hk]
    · simp [cache_coordinates, get_cached_coordinates, hk, ih]

/-- C6.  The geocode resolver is cache-aside: "" and "Unknown" return
absent with no cache or geocoder I/O; a first resolution of an uncached
location invokes the geocoder exactly once and upserts a successful
result; the immediately following resolution of the same location returns
the cached value with zero geocoder calls and an unchanged cache; a
geocoder timeout, service error, or not-found returns absent with one
call and no cache write. -/
theorem geocode_cache_aside (cache : List (String × ℚ × ℚ)) (geocoder : String → GeoResult)
    (location : String) (lat lon : ℚ) :
    (geocode_and_cache_location cache geocoder "" = ⟨none, cache, 0⟩) ∧
      (geocode_and_cache_location cache geocoder "Unknown" = ⟨none, cache, 0⟩) ∧
      (location ≠ "" → location ≠ "Unknown" →
        get_cached_coordinates cache location = none →
        geocoder location = GeoResult.found lat lon →
          geocode_and_cache_location cache geocoder location =
            ⟨some (lat, lon), cache_coordinates cache location lat lon, 1⟩ ∧
          geocode_and_cache_location (cache_coordinates cache location lat lon) geocoder location =
            ⟨some (lat, lon), cache_coordinates cache location lat lon, 0⟩) ∧
      (location ≠ "" → location ≠ "Unknown" →
        get_cached_coordinates cache location = none →
        (geocoder location = GeoResult.notFound ∨ geocoder location = GeoResult.timedOut ∨
          geocoder location = GeoResult.serviceErr) →
          geocode_and_cache_location cache geocoder location = ⟨none, cache, 1⟩) := by
  refine ⟨by simp [geocode_and_cache_location], by simp [geocode_and_cache_location], ?_, ?_⟩
  · intro h1 h2 hmiss hfound
    have hval : ¬ (location = "" ∨ location = "Unknown") := by
      rintro (h | h)
      · exact h1 h
      · exact h2 h
    constructor
    · rw [geocode_and_cache_location, if_neg hval, hmiss, hfound]
    · rw [geocode_and_cache_location, if_neg hval, get_cached_after_upsert]
  · intro h1 h2 hmiss hfail
    have hval : ¬ (location = "" ∨ location = "Unknown") := by
      rintro (h | h)
      · exact h1 h
      · exact h2 h
    rcases hfail with h | h | h <;> rw [geocode_and_cache_location, if_neg hval, hmiss, h]

/-- C6 witness: the cache-aside theorem applied to the empty cache, a
geocoder knowing Paris, and the location Paris. -/
theorem geocode_cache_aside_witness :
    (("Paris" : String) ≠ "" ∧ ("Paris" : String) ≠ "Unknown" ∧
        get_cached_coordinates [] "Paris" = none ∧
        geoSample "Paris" = GeoResult.found 1 2) ∧
      geocode_and_cache_location [] geoSample "Paris" =
          ⟨some (1, 2), cache_coordinates [] "Paris" 1 2, 1⟩ ∧
        geocode_and_cache_location (cache_coordinates [] "Paris" 1 2) geoSample "Paris" =
          ⟨some (1, 2), cache_coordinates [] "Paris" 1 2, 0⟩ := by
  have h := (geocode_cache_aside [] geoSample "Paris" 1 2).2.2.1
    (by decide) (by decide) rfl rfl
  exact ⟨⟨by decide, by decide, rfl, rfl⟩, h⟩

/-- C9 helper: the scan returns the first image passing the predicate. -/
theorem find_first_pass (pre : List PageImg) (img : PageImg) (post : List PageImg)
    (hpre : ∀ j ∈ pre, imgPasses j = false) (himg : imgPasses img = true) :
    (pre ++ img :: post).find? imgPasses = some img := by
  induction pre with
  | nil => simp [List.find?_cons_of_pos, himg]
  | cons j rest ih =>
    rw [List.cons_append, List.find?_cons_of_neg]
    · exact ih (fun j2 hj2 => hpre j2 (List.mem_cons_of_mem j hj2))
    · simp [hpre j (List.mem_cons_self j rest)]

/-- C9 counterexample.  The claim says any image with a declared height
below 150 is rejected.  In the code both dimension checks share one
try/except: pass, so an image whose width attribute fails int() parsing
skips the height check too — with width "N/A" and height "50" the image
survives and is selected. -/
theorem image_unparseable_width_skips_height_check :
    imgBadDims.height = some (some 50) ∧ (50 : ℤ) < 150 ∧
      extract_article_image [imgBadDims] = some "https://x/pic.jpg" := by
  refine ⟨rfl, by decide, ?_⟩
  decide

/-- C9 (amended).  The image selection scans page images in document order
and returns the first image surviving all filters (else absent); an image
whose lowercased URL, alt text, joined class list, or id contains an
exclude-vocabulary term is rejected, as is any image with a declared
integer width below 200; an image with a declared integer height below
150 is rejected provided its width attribute is absent or itself parses
as an integer (a width whose parse raises aborts both dimension checks);
in particular an img class="logo" and an img width="50" are both rejected
even when they appear before a qualifying image. -/
theorem image_selection_spec (pre post imgs : List PageImg) (img i : PageImg)
    (p u : String) (w h : ℤ) :
    ((∀ j ∈ pre, imgPasses j = false) → imgPasses img = true →
        extract_article_image (pre ++ img :: post) = img.src) ∧
      ((∀ j ∈ imgs, imgPasses j = false) → extract_article_image imgs = none) ∧
      (p ∈ exclude_patterns → i.src = some u →
        (containsSubL p (lowerStr u) = true ∨ containsSubL p (lowerStr i.alt) = true ∨
          containsSubL p (lowerStr (joinClasses i.classes)) = true ∨
          containsSubL p (lowerStr i.idAttr) = true) →
        imgPasses i = false) ∧
      (i.width = some (some w) → w < 200 → imgPasses i = false) ∧
      (i.height = some (some h) → h < 150 → i.width ≠ some none → imgPasses i = false) := by
  refine ⟨?_, ?_, ?_, ?_, ?_⟩
  · intro hpre himg
    rw [extract_article_image, find_first_pass pre img post hpre himg]
  · intro hall
    rw [extract_article_image, List.find?_eq_none.2 (fun x hx => by simp [hall x hx])]
  · intro hp hsrc hfield
    have hany : exclude_patterns.any (fun q =>
        containsSubL q (lowerStr u) || containsSubL q (lowerStr i.alt) ||
        containsSubL q (lowerStr (joinClasses i.classes)) ||
        containsSubL q (lowerStr i.idAttr)) = true := by
      rw [List.any_eq_true]
      refine ⟨p, hp, ?_⟩
      rcases hfield with h1 | h1 | h1 | h1 <;> simp [h1]
    simp [imgPasses, hsrc, hany]
  · intro hw hlt
    cases hsrc : i.src with
    | none => simp [imgPasses, hsrc]
    | some u2 => simp [imgPasses, hsrc, dimensionOk, hw, hlt]
  · intro hh hlt hwne
    cases hsrc : i.src with
    | none => simp [imgPasses, hsrc]
    | some u2 =>
      cases hw : i.width with
      | none => simp [imgPasses, hsrc, dimensionOk, hw, hh, hlt]
      | some wv =>
        cases wv with
        | none => exact absurd hw hwne
        | some w2 =>
          by_cases hw2 : w2 < 200 <;>
            simp [imgPasses, hsrc, dimensionOk, hw, hh, hlt, hw2]

/-- C9 witness: an img class="logo" and an img width="50" are rejected and
the first qualifying later image is returned. -/
theorem image_selection_spec_witness :
    (∀ j ∈ [imgLogo, imgSmall], imgPasses j = false) ∧ imgPasses imgGood = true ∧
      extract_article_image ([imgLogo, imgSmall] ++ imgGood :: []) = imgGood.src :=
  ⟨by decide, by decide,
    (image_selection_spec [imgLogo, imgSmall] [] [] imgGood imgGood "" "" 0 0).1
      (by decide) (by decide)⟩

end WorldOnFire
